import Mathlib

/-!
# Real-time chat server: presence registry and message routing

A shallow embedding of the socket handlers of `backend/server.js`, the REST
handlers of `backend/routes/messages.js` and the submit guard of
`frontend/src/components/MessageInput.jsx`.

Conventions of the embedding:

* every handler is a pure function from the server state, the socket it runs
  on, its payload, the value of `new Date()` and the outcome of each awaited
  storage call, to an `Outcome`: the new state, the events emitted (in order),
  the storage calls attempted (in order) and whether the `catch` branch ran;
* an awaited storage call that rejects writes nothing;
* `onlineUsers` is a JavaScript `Map`: an association list in insertion order.
-/

namespace ChatServer

/-! ## Data model -/

/-- User ids travel as strings (the hex form of a Mongo ObjectId). -/
abbrev UserId := String

/-- The id of a socket: `socket.id`, a non-empty string generated by the
server, hence always truthy. Only its identity matters. -/
structure SocketId where
  val : Nat
  deriving DecidableEq, Repr

/-- The `_id` of a stored message. -/
abbrev MessageId := Nat

/-- JavaScript truthiness of a string: every string but the empty one. -/
def truthy (s : String) : Bool := s != ""

/-- A document of the `User` collection, restricted to the fields the handlers write. -/
structure UserDoc where
  id : UserId
  isOnline : Bool
  lastSeen : Nat
  deriving DecidableEq, Repr

/-- A document of the `Message` collection. -/
structure Message where
  id : MessageId
  sender : UserId
  receiver : UserId
  content : String
  createdAt : Nat
  isRead : Bool
  readAt : Option Nat
  deriving DecidableEq, Repr

/-- The map `onlineUsers` (server.js line 43): user id to socket id, entries in
insertion order. -/
structure OnlineUsers where
  entries : List (UserId × SocketId)
  deriving DecidableEq, Repr

namespace OnlineUsers

/-- The value of `new Map()`. -/
def empty : OnlineUsers := ⟨[]⟩

/-- The method `Map.prototype.get`: the value stored under the key, if any. -/
def get (m : OnlineUsers) (userId : UserId) : Option SocketId :=
  (m.entries.find? (fun e => e.1 == userId)).map Prod.snd

/-- The method `Map.prototype.has`. -/
def has (m : OnlineUsers) (userId : UserId) : Bool :=
  m.entries.any (fun e => e.1 == userId)

/-- The method `Map.prototype.set`: an existing key keeps its position and gets
the new value, a new key is appended. -/
def set (m : OnlineUsers) (userId : UserId) (socketId : SocketId) : OnlineUsers :=
  if m.has userId then
    ⟨m.entries.map (fun e => if e.1 == userId then (userId, socketId) else e)⟩
  else
    ⟨m.entries ++ [(userId, socketId)]⟩

/-- The method `Map.prototype.delete`. -/
def delete (m : OnlineUsers) (userId : UserId) : OnlineUsers :=
  ⟨m.entries.filter (fun e => e.1 != userId)⟩

/-- The loop of the disconnect handler (server.js lines 141-147) as a search:
the first entry, in iteration order, whose socket id is the given one. -/
def findBySocket (m : OnlineUsers) (socketId : SocketId) : Option UserId :=
  (m.entries.find? (fun e => e.2 == socketId)).map Prod.fst

end OnlineUsers

/-- The process state the handlers read and write: the registry and the two
collections of the storage collaborator. -/
structure ServerState where
  onlineUsers : OnlineUsers
  users : List UserDoc
  messages : List Message
  deriving DecidableEq, Repr

/-- Where an event is sent: `io.emit` (every connection), `io.to(id).emit`
(the room of one socket id) or `socket.emit` (the socket the handler runs on). -/
inductive Target where
  | everyone
  | room (id : SocketId)
  | socket (id : SocketId)
  deriving DecidableEq, Repr

/-- The outbound events with their payloads. A message payload is `none` when
the handler passes on a `null` document. -/
inductive Payload where
  | user_status_changed (userId : UserId) (isOnline : Bool)
  | user_typing (userId : UserId)
  | user_stopped_typing (userId : UserId)
  | receive_message (message : Option Message)
  | message_sent (message : Option Message)
  | message_error
  | message_read_receipt (messageId : MessageId)
  deriving DecidableEq, Repr

/-- One call of `emit`. -/
structure Emit where
  target : Target
  payload : Payload
  deriving DecidableEq, Repr

/-- A storage call a handler attempts, whether it resolves or rejects. -/
inductive DbCall where
  | userUpdate (userId : UserId) (isOnline : Bool) (lastSeen : Nat)
  | messageCreate (sender receiver : UserId) (content : String)
  | messageFindById (messageId : MessageId)
  | messageUpdateRead (messageId : MessageId) (readAt : Nat)
  | messageSave (messageId : MessageId)
  deriving DecidableEq, Repr

/-- What one run of a socket handler does. -/
structure Outcome where
  state : ServerState
  emits : List Emit
  dbCalls : List DbCall
  caught : Bool
  deriving DecidableEq, Repr

/-! ## The storage collaborator -/

/-- The call `User.findByIdAndUpdate(id, { isOnline, lastSeen })` when it
resolves: the first document with that id is updated, no document is created. -/
def User.findByIdAndUpdate (users : List UserDoc) (id : UserId) (isOnline : Bool)
    (lastSeen : Nat) : List UserDoc :=
  match users with
  | [] => []
  | u :: rest =>
    if u.id == id then { u with isOnline := isOnline, lastSeen := lastSeen } :: rest
    else u :: User.findByIdAndUpdate rest id isOnline lastSeen

/-- Modelled from the spec: the schema of `models/Message.js` is not among the
sources. A created message has the fields of the data model, `isRead = false`
and `readAt = null`; the collaborator assigns `newId` and rejects when it is
unavailable (`ok = false`) or the id is already taken. -/
def Message.create (messages : List Message) (ok : Bool) (newId : MessageId) (now : Nat)
    (sender receiver : UserId) (content : String) : Option (Message × List Message) :=
  if ok && !(messages.any (fun m => m.id == newId)) then
    let message : Message :=
      { id := newId, sender := sender, receiver := receiver, content := content,
        createdAt := now, isRead := false, readAt := none }
    some (message, messages ++ [message])
  else
    none

/-- The call `Message.findById(id)` when it resolves: the document or `null`.
The `populate` calls only decorate the sender and receiver fields. -/
def Message.findById (messages : List Message) (id : MessageId) : Option Message :=
  messages.find? (fun m => m.id == id)

/-- The call `Message.findByIdAndUpdate(id, { isRead: true, readAt })` when it
resolves: the first document with that id is overwritten, whatever it held. -/
def Message.findByIdAndUpdate (messages : List Message) (id : MessageId) (readAt : Nat) :
    List Message :=
  match messages with
  | [] => []
  | m :: rest =>
    if m.id == id then { m with isRead := true, readAt := some readAt } :: rest
    else m :: Message.findByIdAndUpdate rest id readAt

/-- The call `message.save()` when it resolves: the stored document with the
id of `message` is replaced by `message`. -/
def Message.save (messages : List Message) (message : Message) : List Message :=
  match messages with
  | [] => []
  | m :: rest =>
    if m.id == message.id then message :: rest
    else m :: Message.save rest message

/-! ## Socket handlers (server.js) -/

/-- The handler of `user_connected` (server.js lines 50-70) on `socket`. -/
def user_connected (st : ServerState) (socket : SocketId) (userId : UserId) (now : Nat)
    (dbOk : Bool) : Outcome :=
  let st1 : ServerState := { st with onlineUsers := st.onlineUsers.set userId socket }
  if dbOk then
    { state := { st1 with users := User.findByIdAndUpdate st1.users userId true now }
      emits := [⟨Target.everyone, Payload.user_status_changed userId true⟩]
      dbCalls := [DbCall.userUpdate userId true now]
      caught := false }
  else
    { state := st1
      emits := []
      dbCalls := [DbCall.userUpdate userId true now]
      caught := true }

/-- The handler of `disconnect` (server.js lines 137-167) on `socket`. -/
def disconnect (st : ServerState) (socket : SocketId) (now : Nat) (dbOk : Bool) : Outcome :=
  match st.onlineUsers.findBySocket socket with
  | none => { state := st, emits := [], dbCalls := [], caught := false }
  | some disconnectedUserId =>
    let st1 : ServerState :=
      { st with onlineUsers := st.onlineUsers.delete disconnectedUserId }
    if truthy disconnectedUserId then
      if dbOk then
        { state :=
            { st1 with
              users := User.findByIdAndUpdate st1.users disconnectedUserId false now }
          emits := [⟨Target.everyone, Payload.user_status_changed disconnectedUserId false⟩]
          dbCalls := [DbCall.userUpdate disconnectedUserId false now]
          caught := false }
      else
        { state := st1
          emits := []
          dbCalls := [DbCall.userUpdate disconnectedUserId false now]
          caught := true }
    else
      { state := st1, emits := [], dbCalls := [], caught := false }

/-- The handler of `typing` (server.js lines 73-78). -/
def typing (st : ServerState) (senderId receiverId : UserId) : Outcome :=
  match st.onlineUsers.get receiverId with
  | some receiverSocketId =>
    { state := st
      emits := [⟨Target.room receiverSocketId, Payload.user_typing senderId⟩]
      dbCalls := []
      caught := false }
  | none => { state := st, emits := [], dbCalls := [], caught := false }

/-- The handler of `stop_typing` (server.js lines 81-86). -/
def stop_typing (st : ServerState) (senderId receiverId : UserId) : Outcome :=
  match st.onlineUsers.get receiverId with
  | some receiverSocketId =>
    { state := st
      emits := [⟨Target.room receiverSocketId, Payload.user_stopped_typing senderId⟩]
      dbCalls := []
      caught := false }
  | none => { state := st, emits := [], dbCalls := [], caught := false }

/-- The payload of `send_message`. -/
structure SendData where
  sender : UserId
  receiver : UserId
  content : String
  deriving DecidableEq, Repr

/-- How the storage collaborator answers one send: whether `Message.create`
is accepted, the id it assigns, and whether the follow-up `findById` resolves. -/
structure SendStorage where
  createOk : Bool
  newId : MessageId
  findOk : Bool
  deriving DecidableEq, Repr

/-- The handler of `send_message` (server.js lines 89-117) on `socket`. -/
def send_message (st : ServerState) (socket : SocketId) (data : SendData) (now : Nat)
    (db : SendStorage) : Outcome :=
  match Message.create st.messages db.createOk db.newId now data.sender data.receiver
      data.content with
  | none =>
    { state := st
      emits := [⟨Target.socket socket, Payload.message_error⟩]
      dbCalls := [DbCall.messageCreate data.sender data.receiver data.content]
      caught := true }
  | some (message, stored) =>
    let st1 : ServerState := { st with messages := stored }
    if db.findOk then
      let populatedMessage := Message.findById stored message.id
      let toReceiver : List Emit :=
        match st.onlineUsers.get data.receiver with
        | some receiverSocketId =>
          [⟨Target.room receiverSocketId, Payload.receive_message populatedMessage⟩]
        | none => []
      { state := st1
        emits := toReceiver ++ [⟨Target.socket socket, Payload.message_sent populatedMessage⟩]
        dbCalls := [DbCall.messageCreate data.sender data.receiver data.content,
          DbCall.messageFindById message.id]
        caught := false }
    else
      { state := st1
        emits := [⟨Target.socket socket, Payload.message_error⟩]
        dbCalls := [DbCall.messageCreate data.sender data.receiver data.content,
          DbCall.messageFindById message.id]
        caught := true }

/-- The handler of `message_read` (server.js lines 120-134). -/
def message_read (st : ServerState) (messageId : MessageId) (userId : UserId) (now : Nat)
    (dbOk : Bool) : Outcome :=
  if dbOk then
    let st1 : ServerState :=
      { st with messages := Message.findByIdAndUpdate st.messages messageId now }
    let toSender : List Emit :=
      match st.onlineUsers.get userId with
      | some senderSocketId =>
        [⟨Target.room senderSocketId, Payload.message_read_receipt messageId⟩]
      | none => []
    { state := st1
      emits := toSender
      dbCalls := [DbCall.messageUpdateRead messageId now]
      caught := false }
  else
    { state := st
      emits := []
      dbCalls := [DbCall.messageUpdateRead messageId now]
      caught := true }

/-! ## REST handlers (routes/messages.js) -/

/-- What one run of a REST handler does: the collection afterwards, the HTTP
status, the message in the body (if the body is one) and the storage calls. -/
structure RouteOutcome where
  messages : List Message
  status : Nat
  body : Option Message
  dbCalls : List DbCall
  deriving DecidableEq, Repr

/-- The handler of `POST /api/messages` (messages.js lines 32-50), past the
`protect` middleware, which supplies the id of the requesting user. -/
def postMessage (messages : List Message) (reqUser receiver : UserId) (content : String)
    (now : Nat) (db : SendStorage) : RouteOutcome :=
  match Message.create messages db.createOk db.newId now reqUser receiver content with
  | none =>
    { messages := messages, status := 500, body := none
      dbCalls := [DbCall.messageCreate reqUser receiver content] }
  | some (message, stored) =>
    if db.findOk then
      { messages := stored, status := 201, body := Message.findById stored message.id
        dbCalls := [DbCall.messageCreate reqUser receiver content,
          DbCall.messageFindById message.id] }
    else
      { messages := stored, status := 500, body := none
        dbCalls := [DbCall.messageCreate reqUser receiver content,
          DbCall.messageFindById message.id] }

/-- The handler of `PUT /api/messages/:messageId/read` (messages.js lines 55-71),
past the `protect` middleware. -/
def putRead (messages : List Message) (messageId : MessageId) (now : Nat)
    (findOk saveOk : Bool) : RouteOutcome :=
  if findOk then
    match Message.findById messages messageId with
    | none =>
      { messages := messages, status := 404, body := none
        dbCalls := [DbCall.messageFindById messageId] }
    | some found =>
      let message : Message := { found with isRead := true, readAt := some now }
      if saveOk then
        { messages := Message.save messages message, status := 200, body := some message
          dbCalls := [DbCall.messageFindById messageId, DbCall.messageSave messageId] }
      else
        { messages := messages, status := 500, body := none
          dbCalls := [DbCall.messageFindById messageId, DbCall.messageSave messageId] }
  else
    { messages := messages, status := 500, body := none
      dbCalls := [DbCall.messageFindById messageId] }

/-! ## Client-side submit guard (MessageInput.jsx) -/

/-- The characters `String.prototype.trim` strips: white space and line
terminators, by code point. -/
def jsWhitespace (c : Char) : Bool :=
  [9, 10, 11, 12, 13, 32, 160, 5760, 8232, 8233, 8239, 8287, 12288, 65279].contains c.toNat
    || (8192 ≤ c.toNat && c.toNat ≤ 8202)

/-- The method `String.prototype.trim`. -/
def trim (s : String) : String :=
  ⟨((s.data.dropWhile jsWhitespace).reverse.dropWhile jsWhitespace).reverse⟩

/-- The function `handleSubmit` of MessageInput.jsx (lines 27-37): the content
handed to `onSendMessage`, if the guard `message.trim()` lets it through. -/
def handleSubmit (message : String) : Option String :=
  if truthy (trim message) then some message else none

/-! ## Validation of the content by the message schema -/

/-- Modelled from the spec: the schema of `models/Message.js` is not among the
sources. By the message pipeline of the specification, `content` must be
non-empty after trimming whitespace, and a document that is not is rejected
with a validation error before any storage write. -/
def Message.validate (content : String) : Bool :=
  truthy (trim content)

/-- Modelled from the spec: the answer of `Message.create` for a document with
this content, given the answer `db` of the store itself. The validation of the
schema runs first, so a document that fails it is rejected whatever the store
would answer. -/
def SendStorage.withValidation (db : SendStorage) (content : String) : SendStorage :=
  { db with createOk := Message.validate content && db.createOk }

/-! ## Sequences of connection events -/

/-- One inbound connection event with what its handler needs: the value of
`new Date()` and the outcome of the awaited presence update. -/
inductive ConnEvent where
  | connect (userId : UserId) (socket : SocketId) (now : Nat) (dbOk : Bool)
  | disconnect (socket : SocketId) (now : Nat) (dbOk : Bool)
  deriving DecidableEq, Repr

namespace ConnEvent

/-- The handler an event triggers. -/
def handle (st : ServerState) : ConnEvent → Outcome
  | connect userId socket now dbOk => user_connected st socket userId now dbOk
  | disconnect socket now dbOk => ChatServer.disconnect st socket now dbOk

/-- Whether the awaited storage call of the event resolves. -/
def storageOk : ConnEvent → Bool
  | connect _ _ _ dbOk => dbOk
  | disconnect _ _ dbOk => dbOk

/-- The registration an event asks for, if it is a `user_connected`. -/
def registration : ConnEvent → Option (UserId × SocketId)
  | connect userId socket _ _ => some (userId, socket)
  | disconnect _ _ _ => none

end ConnEvent

/-- The state after the handlers of a sequence of events ran one after the other. -/
def finalState (st : ServerState) (events : List ConnEvent) : ServerState :=
  events.foldl (fun s e => (e.handle s).state) st

/-- Every event emitted while the handlers of a sequence ran, in order. -/
def allEmits (st : ServerState) : List ConnEvent → List Emit
  | [] => []
  | e :: rest => (e.handle st).emits ++ allEmits (e.handle st).state rest

/-- Whether an emit is a presence broadcast: `user_status_changed`. -/
def Emit.isPresence (e : Emit) : Bool :=
  match e.payload with
  | Payload.user_status_changed _ _ => true
  | _ => false

/-- The number of presence broadcasts among the emitted events. -/
def presenceBroadcasts (emits : List Emit) : Nat :=
  emits.countP Emit.isPresence

/-- The state of a server that has just started: nobody registered. -/
def initialState (users : List UserDoc) (messages : List Message) : ServerState :=
  { onlineUsers := OnlineUsers.empty, users := users, messages := messages }

/-! ## The registry claim in the words of the specification -/

/-- The handle `lookup(u)` should return after a sequence of calls, read from the
most recent call backwards: the handle of the most recent `register(u, h)`,
unless an `unregister(h)` of that same handle came after it. `later` holds the
handles unregistered after the call under scan. -/
def liveHandleRev (u : UserId) (later : List SocketId) : List ConnEvent → Option SocketId
  | [] => none
  | ConnEvent.disconnect h _ _ :: earlier => liveHandleRev u (h :: later) earlier
  | ConnEvent.connect v h _ _ :: earlier =>
    if v == u then (if later.contains h then none else some h)
    else liveHandleRev u later earlier

/-- The handle `lookup(u)` should return after `events`, by the specification. -/
def liveHandle (u : UserId) (events : List ConnEvent) : Option SocketId :=
  liveHandleRev u [] events.reverse

/-- No socket announces two different users in the sequence. -/
def OneUserPerSocket (events : List ConnEvent) : Prop :=
  ∀ p ∈ events.filterMap ConnEvent.registration,
    ∀ q ∈ events.filterMap ConnEvent.registration, p.2 = q.2 → p.1 = q.1

instance (events : List ConnEvent) : Decidable (OneUserPerSocket events) := by
  unfold OneUserPerSocket
  infer_instance

/-! ## Presence edges in the words of the specification -/

/-- A genuine presence edge: a `user_connected` of a user with no handle
(offline to online) or a `disconnect` of a socket that holds an entry (online
to offline). -/
def isGenuineEdge (st : ServerState) : ConnEvent → Bool
  | ConnEvent.connect userId _ _ _ => (st.onlineUsers.get userId).isNone
  | ConnEvent.disconnect socket _ _ => (st.onlineUsers.findBySocket socket).isSome

/-- A re-registration: a `user_connected` of a user who already has a handle. -/
def isReRegistration (st : ServerState) : ConnEvent → Bool
  | ConnEvent.connect userId _ _ _ => (st.onlineUsers.get userId).isSome
  | ConnEvent.disconnect _ _ _ => false

/-- The number of genuine presence edges along a sequence of events. -/
def genuineEdges (st : ServerState) : List ConnEvent → Nat
  | [] => 0
  | e :: rest => (if isGenuineEdge st e then 1 else 0) + genuineEdges (e.handle st).state rest

/-- The number of re-registrations along a sequence of events. -/
def reRegistrations (st : ServerState) : List ConnEvent → Nat
  | [] => 0
  | e :: rest =>
    (if isReRegistration st e then 1 else 0) + reRegistrations (e.handle st).state rest

/-! ## Lemmas on the registry -/

theorem find_update_self (l : List (UserId × SocketId)) (u : UserId) (h : SocketId)
    (hany : (l.any fun e => e.1 == u) = true) :
    (l.map (fun e => if e.1 == u then (u, h) else e)).find? (fun e => e.1 == u) = some (u, h) := by
  induction l with
  | nil => simp at hany
  | cons e rest ih =>
    by_cases he : e.1 = u
    · have hb : (e.1 == u) = true := by simp [he]
      simp only [List.map_cons, hb, if_true, List.find?_cons, beq_self_eq_true]
    · have hb : (e.1 == u) = false := by simp [he]
      have hrest : (rest.any fun e => e.1 == u) = true := by
        simpa [hb] using hany
      simp only [List.map_cons, hb, List.find?_cons, Bool.false_eq_true, if_false]
      exact ih hrest

theorem find_update_other (l : List (UserId × SocketId)) (u v : UserId) (h : SocketId)
    (hne : v ≠ u) :
    ((l.map (fun e => if e.1 == u then (u, h) else e)).find? (fun e => e.1 == v)).map Prod.snd
      = (l.find? (fun e => e.1 == v)).map Prod.snd := by
  have huv : (u == v) = false := by simpa using fun hh : u = v => hne hh.symm
  induction l with
  | nil => rfl
  | cons e rest ih =>
    by_cases he : e.1 = u
    · have hb : (e.1 == u) = true := by simp [he]
      have hc : (e.1 == v) = false := by rw [he]; exact huv
      simp only [List.map_cons, hb, if_true, List.find?_cons, huv, hc]
      exact ih
    · have hb : (e.1 == u) = false := by simp [he]
      simp only [List.map_cons, hb, Bool.false_eq_true, if_false, List.find?_cons]
      cases hc : (e.1 == v) with
      | true => rfl
      | false => exact ih

theorem find_filter_other (l : List (UserId × SocketId)) (u v : UserId) (hne : v ≠ u) :
    (l.filter (fun e => e.1 != u)).find? (fun e => e.1 == v) = l.find? (fun e => e.1 == v) := by
  have huv : (u == v) = false := by simpa using fun hh : u = v => hne hh.symm
  induction l with
  | nil => rfl
  | cons e rest ih =>
    by_cases he : e.1 = u
    · have hb : (e.1 != u) = false := by simp [he]
      have hc : (e.1 == v) = false := by rw [he]; exact huv
      simp only [List.filter_cons, hb, Bool.false_eq_true, if_false, List.find?_cons, hc]
      exact ih
    · have hb : (e.1 != u) = true := by simp [he]
      simp only [List.filter_cons, hb, if_true, List.find?_cons]
      cases hc : (e.1 == v) with
      | true => rfl
      | false => exact ih

namespace OnlineUsers

theorem get_eq_some_mem {m : OnlineUsers} {u : UserId} {h : SocketId}
    (hget : m.get u = some h) : (u, h) ∈ m.entries := by
  unfold get at hget
  cases hf : m.entries.find? (fun e => e.1 == u) with
  | none => simp [hf] at hget
  | some e =>
    have hmem := List.mem_of_find?_eq_some hf
    have hkey := List.find?_some hf
    simp [hf] at hget
    have hk : e.1 = u := by simpa using hkey
    have : e = (u, h) := by
      cases e
      simp_all
    exact this ▸ hmem

theorem get_set_self (m : OnlineUsers) (u : UserId) (h : SocketId) :
    (m.set u h).get u = some h := by
  obtain ⟨l⟩ := m
  unfold set has get
  by_cases hany : (l.any fun e => e.1 == u) = true
  · simp only [hany, if_true]
    rw [find_update_self l u h hany]
    rfl
  · have hnone : l.find? (fun e => e.1 == u) = none := by
      rw [List.find?_eq_none]
      intro e he hk
      exact hany (List.any_eq_true.mpr ⟨e, he, hk⟩)
    rw [if_neg hany]
    simp only
    rw [List.find?_append, hnone]
    simp

theorem get_set_other (m : OnlineUsers) {u v : UserId} (h : SocketId) (hne : v ≠ u) :
    (m.set u h).get v = m.get v := by
  obtain ⟨l⟩ := m
  unfold set has get
  have huv : (u == v) = false := by simpa using fun hh : u = v => hne hh.symm
  split
  · exact find_update_other l u v h hne
  · simp only
    rw [List.find?_append]
    cases l.find? (fun e => e.1 == v) with
    | some x => rfl
    | none => simp [List.find?_cons, huv]

theorem get_delete_self (m : OnlineUsers) (u : UserId) : (m.delete u).get u = none := by
  obtain ⟨l⟩ := m
  unfold delete get
  simp [List.find?_eq_none]

theorem get_delete_other (m : OnlineUsers) {u v : UserId} (hne : v ≠ u) :
    (m.delete u).get v = m.get v := by
  obtain ⟨l⟩ := m
  unfold delete get
  simp only
  rw [find_filter_other l u v hne]

theorem mem_set {m : OnlineUsers} {u : UserId} {h : SocketId} {e : UserId × SocketId}
    (he : e ∈ (m.set u h).entries) : e = (u, h) ∨ (e ∈ m.entries ∧ e.1 ≠ u) := by
  obtain ⟨l⟩ := m
  unfold set has at he
  split at he
  · simp only [List.mem_map] at he
    obtain ⟨a, ha, hae⟩ := he
    by_cases hk : a.1 = u
    · left
      simpa [hk] using hae.symm
    · right
      have : a = e := by simpa [hk] using hae
      subst this
      exact ⟨ha, hk⟩
  · rename_i hany
    simp only [List.mem_append, List.mem_singleton] at he
    rcases he with he | he
    · right
      refine ⟨he, fun hk => hany ?_⟩
      exact List.any_eq_true.mpr ⟨e, he, by simpa using hk⟩
    · left
      exact he

theorem mem_delete {m : OnlineUsers} {u : UserId} {e : UserId × SocketId}
    (he : e ∈ (m.delete u).entries) : e ∈ m.entries ∧ e.1 ≠ u := by
  obtain ⟨l⟩ := m
  unfold delete at he
  simpa using he

theorem findBySocket_eq_none {m : OnlineUsers} {h : SocketId} :
    m.findBySocket h = none ↔ ∀ e ∈ m.entries, e.2 ≠ h := by
  unfold findBySocket
  simp [List.find?_eq_none]

theorem findBySocket_eq_some_mem {m : OnlineUsers} {h : SocketId} {u : UserId}
    (hf : m.findBySocket h = some u) : (u, h) ∈ m.entries := by
  unfold findBySocket at hf
  cases hfe : m.entries.find? (fun e => e.2 == h) with
  | none => simp [hfe] at hf
  | some e =>
    have hmem := List.mem_of_find?_eq_some hfe
    have hval := List.find?_some hfe
    simp [hfe] at hf
    have hv : e.2 = h := by simpa using hval
    have : e = (u, h) := by
      cases e
      simp_all
    exact this ▸ hmem

end OnlineUsers

/-! ## Lemmas on the connection handlers -/

theorem user_connected_registry (st : ServerState) (socket : SocketId) (userId : UserId)
    (now : Nat) (dbOk : Bool) :
    (user_connected st socket userId now dbOk).state.onlineUsers
      = st.onlineUsers.set userId socket := by
  unfold user_connected
  cases dbOk <;> rfl

theorem disconnect_registry (st : ServerState) (socket : SocketId) (now : Nat) (dbOk : Bool) :
    (disconnect st socket now dbOk).state.onlineUsers
      = match st.onlineUsers.findBySocket socket with
        | none => st.onlineUsers
        | some userId => st.onlineUsers.delete userId := by
  unfold disconnect
  cases hf : st.onlineUsers.findBySocket socket with
  | none => rfl
  | some v =>
    cases dbOk <;> cases ht : truthy v <;> simp [ht]

theorem functional_set {m : OnlineUsers} (u : UserId) (h : SocketId)
    (hm : ∀ e ∈ m.entries, m.get e.1 = some e.2) :
    ∀ e ∈ (m.set u h).entries, (m.set u h).get e.1 = some e.2 := by
  intro e he
  rcases OnlineUsers.mem_set he with rfl | ⟨hmem, hk⟩
  · exact OnlineUsers.get_set_self m u h
  · rw [OnlineUsers.get_set_other m h hk]
    exact hm e hmem

theorem functional_delete {m : OnlineUsers} (u : UserId)
    (hm : ∀ e ∈ m.entries, m.get e.1 = some e.2) :
    ∀ e ∈ (m.delete u).entries, (m.delete u).get e.1 = some e.2 := by
  intro e he
  obtain ⟨hmem, hk⟩ := OnlineUsers.mem_delete he
  rw [OnlineUsers.get_delete_other m hk]
  exact hm e hmem

/-- The registry after a disconnect, seen through `get`, when every entry is the
value of its key and no two entries share a socket. -/
theorem disconnect_get {st : ServerState} (socket : SocketId) (now : Nat) (dbOk : Bool)
    (u : UserId)
    (hfun : ∀ e ∈ st.onlineUsers.entries, st.onlineUsers.get e.1 = some e.2)
    (hinj : ∀ p ∈ st.onlineUsers.entries, ∀ q ∈ st.onlineUsers.entries, p.2 = q.2 → p.1 = q.1) :
    (disconnect st socket now dbOk).state.onlineUsers.get u
      = if st.onlineUsers.get u = some socket then none else st.onlineUsers.get u := by
  rw [disconnect_registry]
  cases hf : st.onlineUsers.findBySocket socket with
  | none =>
    have hall := OnlineUsers.findBySocket_eq_none.mp hf
    have hne : ¬ st.onlineUsers.get u = some socket := by
      intro hget
      exact hall _ (OnlineUsers.get_eq_some_mem hget) rfl
    simp only [hne, if_false]
  | some v =>
    have hv := OnlineUsers.findBySocket_eq_some_mem hf
    simp only
    by_cases hget : st.onlineUsers.get u = some socket
    · have huv : u = v := hinj _ (OnlineUsers.get_eq_some_mem hget) _ hv rfl
      rw [if_pos hget, huv]
      exact OnlineUsers.get_delete_self _ v
    · rw [if_neg hget]
      have hne : u ≠ v := by
        intro huv
        apply hget
        rw [huv]
        exact hfun _ hv
      exact OnlineUsers.get_delete_other _ hne

theorem finalState_append (st : ServerState) (events : List ConnEvent) (e : ConnEvent) :
    finalState st (events ++ [e]) = (e.handle (finalState st events)).state := by
  simp [finalState, List.foldl_append]

/-- Along a run from the empty registry every entry is the value of its key and
was put there by a registration of the run. -/
theorem finalState_registry_inv (users : List UserDoc) (messages : List Message)
    (events : List ConnEvent) :
    (∀ e ∈ (finalState (initialState users messages) events).onlineUsers.entries,
        (finalState (initialState users messages) events).onlineUsers.get e.1 = some e.2) ∧
    (∀ e ∈ (finalState (initialState users messages) events).onlineUsers.entries,
        e ∈ events.filterMap ConnEvent.registration) := by
  induction events using List.reverseRecOn with
  | nil =>
    constructor <;> intro e he <;> simp [finalState, initialState, OnlineUsers.empty] at he
  | append_singleton l a ih =>
    obtain ⟨ihf, ihm⟩ := ih
    rw [finalState_append]
    cases a with
    | connect v h now ok =>
      simp only [ConnEvent.handle, user_connected_registry]
      refine ⟨functional_set v h ihf, ?_⟩
      intro e he
      rw [List.filterMap_append, List.mem_append]
      rcases OnlineUsers.mem_set he with rfl | ⟨hmem, _⟩
      · right
        simp [ConnEvent.registration]
      · left
        exact ihm e hmem
    | disconnect h now ok =>
      simp only [ConnEvent.handle, disconnect_registry]
      cases hf : (finalState (initialState users messages) l).onlineUsers.findBySocket h with
      | none =>
        refine ⟨ihf, ?_⟩
        intro e he
        rw [List.filterMap_append, List.mem_append]
        exact Or.inl (ihm e he)
      | some v =>
        refine ⟨functional_delete v ihf, ?_⟩
        intro e he
        rw [List.filterMap_append, List.mem_append]
        exact Or.inl (ihm e (OnlineUsers.mem_delete he).1)

/-- Handles unregistered later only filter the answer of the backward scan. -/
theorem liveHandleRev_later (u : UserId) (later : List SocketId) (events : List ConnEvent) :
    liveHandleRev u later events
      = (liveHandleRev u [] events).bind
          (fun h => if later.contains h then none else some h) := by
  induction events generalizing later with
  | nil => rfl
  | cons e rest ih =>
    cases e with
    | connect v h now ok =>
      by_cases hv : (v == u) = true
      · simp [liveHandleRev, hv]
      · simp only [liveHandleRev, hv, if_false, Bool.false_eq_true]
        exact ih later
    | disconnect h now ok =>
      simp only [liveHandleRev]
      rw [ih (h :: later), ih [h]]
      cases liveHandleRev u [] rest with
      | none => rfl
      | some x =>
        by_cases hx : x = h
        · simp [hx]
        · simp [hx]

/-- The backward scan answers `h` exactly when the most recent registration of `u`
is on `h` and no unregister of `h` came after it. -/
theorem liveHandleRev_eq_some_iff (u : UserId) (later : List SocketId)
    (events : List ConnEvent) (h : SocketId) :
    liveHandleRev u later events = some h ↔
      ∃ newer older now ok, events = newer ++ ConnEvent.connect u h now ok :: older ∧
        (∀ e ∈ newer, ∀ p, e.registration = some p → p.1 ≠ u) ∧
        h ∉ later ∧ (∀ e ∈ newer, ∀ t b, e ≠ ConnEvent.disconnect h t b) := by
  induction events generalizing later with
  | nil =>
    constructor
    · intro hh
      simp [liveHandleRev] at hh
    · rintro ⟨newer, older, now, ok, heq, _⟩
      simp at heq
  | cons e rest ih =>
    cases e with
    | disconnect k t b =>
      simp only [liveHandleRev]
      rw [ih (k :: later)]
      constructor
      · rintro ⟨newer, older, now, ok, heq, hreg, hlater, hdisc⟩
        refine ⟨ConnEvent.disconnect k t b :: newer, older, now, ok, ?_, ?_, ?_, ?_⟩
        · rw [heq]
          rfl
        · intro e he p hp
          rcases List.mem_cons.mp he with rfl | he
          · simp [ConnEvent.registration] at hp
          · exact hreg e he p hp
        · exact fun hm => hlater (List.mem_cons_of_mem _ hm)
        · intro e he t2 b2 heq2
          rcases List.mem_cons.mp he with rfl | he
          · injection heq2 with hk
            exact hlater (hk ▸ List.mem_cons_self _ _)
          · exact hdisc e he t2 b2 heq2
      · rintro ⟨newer, older, now, ok, heq, hreg, hlater, hdisc⟩
        cases newer with
        | nil => simp at heq
        | cons x newer =>
          simp only [List.cons_append, List.cons.injEq] at heq
          obtain ⟨hx, hrest⟩ := heq
          refine ⟨newer, older, now, ok, hrest, ?_, ?_, ?_⟩
          · exact fun e he => hreg e (List.mem_cons_of_mem _ he)
          · intro hm
            rcases List.mem_cons.mp hm with hk | hm
            · exact hdisc x (List.mem_cons_self _ _) t b (by rw [← hx, hk])
            · exact hlater hm
          · exact fun e he => hdisc e (List.mem_cons_of_mem _ he)
    | connect v k t b =>
      by_cases hv : v = u
      · subst hv
        simp only [liveHandleRev, beq_self_eq_true, if_true]
        constructor
        · intro hh
          by_cases hc : later.contains k = true
          · rw [if_pos hc] at hh
            exact absurd hh (by simp)
          · simp only [hc, Bool.false_eq_true, if_false, Option.some.injEq] at hh
            subst hh
            refine ⟨[], rest, t, b, rfl, ?_, ?_, ?_⟩
            · intro e he
              simp at he
            · simpa using hc
            · intro e he
              simp at he
        · rintro ⟨newer, older, now, ok, heq, hreg, hlater, _⟩
          cases newer with
          | nil =>
            simp only [List.nil_append, List.cons.injEq, ConnEvent.connect.injEq] at heq
            obtain ⟨⟨_, hk, _, _⟩, _⟩ := heq
            subst hk
            have hc : ¬ later.contains k = true := by simpa using hlater
            rw [if_neg hc]
          | cons x newer =>
            simp only [List.cons_append, List.cons.injEq] at heq
            obtain ⟨hx, _⟩ := heq
            exact absurd rfl (hreg x (List.mem_cons_self _ _) (v, k) (by rw [← hx]; rfl))
      · have hb : (v == u) = false := by simpa using hv
        simp only [liveHandleRev, hb, Bool.false_eq_true, if_false]
        rw [ih later]
        constructor
        · rintro ⟨newer, older, now, ok, heq, hreg, hlater, hdisc⟩
          refine ⟨ConnEvent.connect v k t b :: newer, older, now, ok, ?_, ?_, hlater, ?_⟩
          · rw [heq]
            rfl
          · intro e he p hp
            rcases List.mem_cons.mp he with rfl | he
            · simp only [ConnEvent.registration, Option.some.injEq] at hp
              rw [← hp]
              exact hv
            · exact hreg e he p hp
          · intro e he t2 b2 heq2
            rcases List.mem_cons.mp he with rfl | he
            · cases heq2
            · exact hdisc e he t2 b2 heq2
        · rintro ⟨newer, older, now, ok, heq, hreg, hlater, hdisc⟩
          cases newer with
          | nil =>
            simp only [List.nil_append, List.cons.injEq, ConnEvent.connect.injEq] at heq
            exact absurd heq.1.1 hv
          | cons x newer =>
            simp only [List.cons_append, List.cons.injEq] at heq
            obtain ⟨_, hrest⟩ := heq
            exact ⟨newer, older, now, ok, hrest,
              fun e he => hreg e (List.mem_cons_of_mem _ he), hlater,
              fun e he => hdisc e (List.mem_cons_of_mem _ he)⟩

/-- The specification reading of `lookup(u)`, stated on the sequence itself: it is
`h` exactly when the sequence splits at a `register(u, h)` after which `u` is not
registered again and `h` is not unregistered. -/
theorem liveHandle_eq_some_iff (u : UserId) (events : List ConnEvent) (h : SocketId) :
    liveHandle u events = some h ↔
      ∃ before after now ok, events = before ++ ConnEvent.connect u h now ok :: after ∧
        (∀ e ∈ after, ∀ p, e.registration = some p → p.1 ≠ u) ∧
        (∀ e ∈ after, ∀ t b, e ≠ ConnEvent.disconnect h t b) := by
  unfold liveHandle
  rw [liveHandleRev_eq_some_iff]
  constructor
  · rintro ⟨newer, older, now, ok, heq, hreg, _, hdisc⟩
    refine ⟨older.reverse, newer.reverse, now, ok, ?_, ?_, ?_⟩
    · have := congrArg List.reverse heq
      simpa using this
    · exact fun e he => hreg e (List.mem_reverse.mp he)
    · exact fun e he => hdisc e (List.mem_reverse.mp he)
  · rintro ⟨before, after, now, ok, heq, hreg, hdisc⟩
    refine ⟨after.reverse, before.reverse, now, ok, ?_, ?_, ?_, ?_⟩
    · rw [heq]
      simp
    · exact fun e he => hreg e (List.mem_reverse.mp he)
    · simp
    · exact fun e he => hdisc e (List.mem_reverse.mp he)

/-! ## Lemmas on the message collection -/

theorem findById_findByIdAndUpdate (messages : List Message) (id : MessageId) (readAt : Nat) :
    Message.findById (Message.findByIdAndUpdate messages id readAt) id
      = (Message.findById messages id).map
          (fun m => { m with isRead := true, readAt := some readAt }) := by
  induction messages with
  | nil => rfl
  | cons m rest ih =>
    unfold Message.findById at ih ⊢
    cases hb : (m.id == id) with
    | true =>
      simp only [Message.findByIdAndUpdate, hb, if_true, List.find?_cons, Option.map_some']
    | false =>
      simp only [Message.findByIdAndUpdate, hb, Bool.false_eq_true, if_false, List.find?_cons]
      exact ih

theorem findById_id {messages : List Message} {id : MessageId} {m : Message}
    (h : Message.findById messages id = some m) : m.id = id := by
  unfold Message.findById at h
  simpa using List.find?_some h

theorem findById_save (messages : List Message) (message : Message)
    (h : (Message.findById messages message.id).isSome = true) :
    Message.findById (Message.save messages message) message.id = some message := by
  induction messages with
  | nil => simp [Message.findById] at h
  | cons m rest ih =>
    unfold Message.findById at ih h ⊢
    cases hb : (m.id == message.id) with
    | true =>
      simp only [Message.save, hb, if_true, List.find?_cons, beq_self_eq_true]
    | false =>
      simp only [List.find?_cons, hb] at h
      simp only [Message.save, hb, Bool.false_eq_true, if_false, List.find?_cons]
      exact ih h

theorem findById_append_fresh (messages : List Message) (message : Message)
    (h : messages.any (fun m => m.id == message.id) = false) :
    Message.findById (messages ++ [message]) message.id = some message := by
  unfold Message.findById
  have hnone : messages.find? (fun m => m.id == message.id) = none := by
    rw [List.find?_eq_none]
    intro x hx hk
    have : messages.any (fun m => m.id == message.id) = true :=
      List.any_eq_true.mpr ⟨x, hx, hk⟩
    rw [h] at this
    exact Bool.false_ne_true this
  rw [List.find?_append, hnone]
  simp [List.find?_cons]

/-! ## Lemmas on the send operations -/

/-- The send operations do not look at the content themselves: the first thing
they do is hand it unchanged to `Message.create`, and the answer of
`Message.create` alone decides the outcome. When the document is accepted, the
message is stored with that content, `message_sent` is emitted on the sending
socket and the route answers 201; when it is rejected, nothing is stored, the
only event is `message_error` on the sending socket and the route answers 500. -/
theorem send_outcome_decided_by_storage (st : ServerState) (socket : SocketId)
    (data : SendData) (now : Nat) (newId : MessageId) (findOk : Bool)
    (hfresh : st.messages.any (fun m => m.id == newId) = false) :
    (send_message st socket data now ⟨true, newId, true⟩).dbCalls.head?
        = some (DbCall.messageCreate data.sender data.receiver data.content) ∧
      (send_message st socket data now ⟨true, newId, true⟩).state.messages
        = st.messages ++ [⟨newId, data.sender, data.receiver, data.content, now, false, none⟩] ∧
      (⟨Target.socket socket, Payload.message_sent
          (some ⟨newId, data.sender, data.receiver, data.content, now, false, none⟩)⟩ : Emit)
        ∈ (send_message st socket data now ⟨true, newId, true⟩).emits ∧
      (postMessage st.messages data.sender data.receiver data.content now
          ⟨true, newId, true⟩).status = 201 ∧
      (postMessage st.messages data.sender data.receiver data.content now
          ⟨true, newId, true⟩).messages
        = st.messages ++ [⟨newId, data.sender, data.receiver, data.content, now, false, none⟩] ∧
      (send_message st socket data now ⟨false, newId, findOk⟩).dbCalls
        = [DbCall.messageCreate data.sender data.receiver data.content] ∧
      (send_message st socket data now ⟨false, newId, findOk⟩).state = st ∧
      (send_message st socket data now ⟨false, newId, findOk⟩).emits
        = [⟨Target.socket socket, Payload.message_error⟩] ∧
      (postMessage st.messages data.sender data.receiver data.content now
          ⟨false, newId, findOk⟩).status = 500 ∧
      (postMessage st.messages data.sender data.receiver data.content now
          ⟨false, newId, findOk⟩).messages = st.messages := by
  have hc : Message.create st.messages true newId now data.sender data.receiver data.content
      = some (⟨newId, data.sender, data.receiver, data.content, now, false, none⟩,
          st.messages ++ [⟨newId, data.sender, data.receiver, data.content, now, false, none⟩]) := by
    simp [Message.create, hfresh]
  have hr : Message.create st.messages false newId now data.sender data.receiver data.content
      = none := by
    simp [Message.create]
  have hf := findById_append_fresh st.messages
    ⟨newId, data.sender, data.receiver, data.content, now, false, none⟩ hfresh
  simp only at hf
  refine ⟨?_, ?_, ?_, ?_, ?_, ?_, ?_, ?_, ?_, ?_⟩
  · unfold send_message
    rw [hc]
    rfl
  · unfold send_message
    rw [hc]
    rfl
  · unfold send_message
    rw [hc]
    simp only [if_true, hf]
    exact List.mem_append_right _ (List.mem_singleton.mpr rfl)
  · unfold postMessage
    rw [hc]
    rfl
  · unfold postMessage
    rw [hc]
    rfl
  · unfold send_message
    rw [hr]
  · unfold send_message
    rw [hr]
  · unfold send_message
    rw [hr]
  · unfold postMessage
    rw [hr]
  · unfold postMessage
    rw [hr]

/-- The validation lets every content through that is not blank: the answer of
`Message.create` is then the answer of the store. -/
theorem withValidation_of_valid (db : SendStorage) (content : String)
    (hvalid : Message.validate content = true) : db.withValidation content = db := by
  unfold SendStorage.withValidation
  rw [hvalid]
  simp

/-- The validation rejects blank content whatever the store would answer. -/
theorem create_blank_rejected (messages : List Message) (db : SendStorage) (now : Nat)
    (sender receiver : UserId) (content : String) (hblank : trim content = "") :
    Message.create messages (db.withValidation content).createOk
      (db.withValidation content).newId now sender receiver content = none := by
  have hinvalid : Message.validate content = false := by
    unfold Message.validate
    rw [hblank]
    rfl
  simp [Message.create, SendStorage.withValidation, hinvalid]

/-! ## C1: the registry under register and unregister -/

/-- C1, counterexample. Alice and Bob are both announced on socket 1, then socket 1
disconnects: the loop of the disconnect handler stops at the first entry, so Bob
keeps his handle although his most recent registration was followed by an
unregister of that same handle. -/
theorem registry_lookup_shared_socket_counterexample :
    ¬ (((finalState (initialState [] [])
          [ConnEvent.connect "alice" ⟨1⟩ 0 true, ConnEvent.connect "bob" ⟨1⟩ 1 true,
            ConnEvent.disconnect ⟨1⟩ 2 true]).onlineUsers.get "bob").isSome = true
        ↔ (liveHandle "bob"
          [ConnEvent.connect "alice" ⟨1⟩ 0 true, ConnEvent.connect "bob" ⟨1⟩ 1 true,
            ConnEvent.disconnect ⟨1⟩ 2 true]).isSome = true) := by
  decide

/-- C1, amended. For every sequence of user_connected and disconnect events from
the empty registry in which no socket announces two different users, whatever the
storage outcomes, `onlineUsers.get(u)` is exactly the handle of the most recent
registration of `u` when no disconnect of that handle followed it, and nothing
otherwise. -/
theorem registry_lookup_live_handle (users : List UserDoc) (messages : List Message)
    (events : List ConnEvent) (u : UserId) (hone : OneUserPerSocket events) :
    (finalState (initialState users messages) events).onlineUsers.get u
      = liveHandle u events := by
  induction events using List.reverseRecOn with
  | nil => rfl
  | append_singleton l a ih =>
    have hsub : ∀ p, p ∈ l.filterMap ConnEvent.registration →
        p ∈ (l ++ [a]).filterMap ConnEvent.registration := by
      intro p hp
      rw [List.filterMap_append, List.mem_append]
      exact Or.inl hp
    have hl : OneUserPerSocket l := fun p hp q hq => hone p (hsub p hp) q (hsub q hq)
    have ihl := ih hl
    obtain ⟨hfun, hmem⟩ := finalState_registry_inv users messages l
    rw [finalState_append]
    unfold liveHandle at ihl ⊢
    rw [List.reverse_append, List.reverse_singleton, List.singleton_append]
    cases a with
    | connect v h now ok =>
      simp only [ConnEvent.handle, user_connected_registry, liveHandleRev]
      by_cases hv : v = u
      · subst hv
        simp [OnlineUsers.get_set_self]
      · have hb : (v == u) = false := by simpa using hv
        simp only [hb, Bool.false_eq_true, if_false]
        rw [OnlineUsers.get_set_other _ h (fun hh => hv hh.symm)]
        exact ihl
    | disconnect h now ok =>
      have hinj : ∀ p ∈ (finalState (initialState users messages) l).onlineUsers.entries,
          ∀ q ∈ (finalState (initialState users messages) l).onlineUsers.entries,
            p.2 = q.2 → p.1 = q.1 :=
        fun p hp q hq => hl p (hmem p hp) q (hmem q hq)
      simp only [ConnEvent.handle, liveHandleRev]
      rw [disconnect_get h now ok u hfun hinj, liveHandleRev_later, ← ihl]
      cases (finalState (initialState users messages) l).onlineUsers.get u with
      | none => rfl
      | some x =>
        by_cases hx : x = h
        · simp [hx]
        · simp [hx]

/-- C1, witness: Alice registers on socket 1, again on socket 2, and socket 1 disconnects. -/
theorem registry_lookup_live_handle_witness :
    OneUserPerSocket
        [ConnEvent.connect "alice" ⟨1⟩ 0 true, ConnEvent.connect "alice" ⟨2⟩ 1 false,
          ConnEvent.disconnect ⟨1⟩ 2 true] ∧
      (finalState (initialState [] [])
          [ConnEvent.connect "alice" ⟨1⟩ 0 true, ConnEvent.connect "alice" ⟨2⟩ 1 false,
            ConnEvent.disconnect ⟨1⟩ 2 true]).onlineUsers.get "alice"
        = liveHandle "alice"
          [ConnEvent.connect "alice" ⟨1⟩ 0 true, ConnEvent.connect "alice" ⟨2⟩ 1 false,
            ConnEvent.disconnect ⟨1⟩ 2 true] :=
  ⟨by decide,
    registry_lookup_live_handle [] []
      [ConnEvent.connect "alice" ⟨1⟩ 0 true, ConnEvent.connect "alice" ⟨2⟩ 1 false,
        ConnEvent.disconnect ⟨1⟩ 2 true]
      "alice" (by decide)⟩

/-! ## C2: presence broadcasts and presence edges -/

/-- C2, counterexample. Alice is registered on socket 1 and announces herself again
on socket 2 with storage succeeding: the handler broadcasts once more. -/
theorem reregistration_broadcasts_counterexample :
    (OnlineUsers.mk [("alice", ⟨1⟩)]).get "alice" = some ⟨1⟩ ∧
      presenceBroadcasts
        (user_connected ⟨⟨[("alice", ⟨1⟩)]⟩, [], []⟩ ⟨2⟩ "alice" 7 true).emits = 1 := by
  decide

/-- C2, amended. With storage succeeding, `user_connected` emits exactly one
presence broadcast for the user whether or not the user already has a handle;
and over any sequence of connect and disconnect events with non-empty user ids,
the number of presence broadcasts is the number of genuine presence edges plus
the number of re-registrations of an already-online user. -/
theorem presence_broadcasts_edges_and_reregistrations (st : ServerState)
    (events : List ConnEvent)
    (hok : ∀ e ∈ events, e.storageOk = true)
    (hids : ∀ p ∈ events.filterMap ConnEvent.registration, truthy p.1 = true)
    (hkeys : ∀ p ∈ st.onlineUsers.entries, truthy p.1 = true) :
    (∀ (s : ServerState) (socket : SocketId) (userId : UserId) (now : Nat),
        (user_connected s socket userId now true).emits
          = [⟨Target.everyone, Payload.user_status_changed userId true⟩]) ∧
      presenceBroadcasts (allEmits st events)
        = genuineEdges st events + reRegistrations st events := by
  refine ⟨fun s socket userId now => rfl, ?_⟩
  induction events generalizing st with
  | nil => rfl
  | cons e rest ih =>
    have hokr : ∀ x ∈ rest, x.storageOk = true := fun x hx => hok x (List.mem_cons_of_mem _ hx)
    have hoke : e.storageOk = true := hok e (List.mem_cons_self _ _)
    simp only [allEmits, genuineEdges, reRegistrations, presenceBroadcasts, List.countP_append]
    cases e with
    | connect u h now ok =>
      have hokt : ok = true := hoke
      subst hokt
      have hidr : ∀ p ∈ rest.filterMap ConnEvent.registration, truthy p.1 = true := by
        intro p hp
        apply hids p
        simp only [List.filterMap_cons, ConnEvent.registration]
        exact List.mem_cons_of_mem _ hp
      have hu : truthy u = true := by
        apply hids (u, h)
        simp [List.filterMap_cons, ConnEvent.registration]
      have hkeys2 : ∀ p ∈ (user_connected st h u now true).state.onlineUsers.entries,
          truthy p.1 = true := by
        intro p hp
        rw [user_connected_registry] at hp
        rcases OnlineUsers.mem_set hp with rfl | ⟨hmem, _⟩
        · exact hu
        · exact hkeys p hmem
      have ihr := ih (user_connected st h u now true).state hokr hidr hkeys2
      simp only [presenceBroadcasts] at ihr
      simp only [ConnEvent.handle, isGenuineEdge, isReRegistration]
      rw [ihr]
      have hone : List.countP Emit.isPresence (user_connected st h u now true).emits = 1 := rfl
      rw [hone]
      have hsplit : (if (st.onlineUsers.get u).isNone = true then 1 else 0)
          + (if (st.onlineUsers.get u).isSome = true then 1 else 0) = 1 := by
        cases st.onlineUsers.get u <;> rfl
      omega
    | disconnect h now ok =>
      have hokt : ok = true := hoke
      subst hokt
      have hidr : ∀ p ∈ rest.filterMap ConnEvent.registration, truthy p.1 = true := by
        intro p hp
        apply hids p
        simpa [List.filterMap_cons, ConnEvent.registration] using hp
      have hkeys2 : ∀ p ∈ (disconnect st h now true).state.onlineUsers.entries,
          truthy p.1 = true := by
        intro p hp
        rw [disconnect_registry] at hp
        cases hf : st.onlineUsers.findBySocket h with
        | none =>
          rw [hf] at hp
          exact hkeys p hp
        | some v =>
          rw [hf] at hp
          exact hkeys p (OnlineUsers.mem_delete hp).1
      have ihr := ih (disconnect st h now true).state hokr hidr hkeys2
      simp only [presenceBroadcasts] at ihr
      simp only [ConnEvent.handle, isGenuineEdge, isReRegistration]
      rw [ihr]
      have hcount : List.countP Emit.isPresence (disconnect st h now true).emits
          = if (st.onlineUsers.findBySocket h).isSome then 1 else 0 := by
        unfold disconnect
        cases hf : st.onlineUsers.findBySocket h with
        | none => rfl
        | some v =>
          have hv : truthy v = true := hkeys (v, h) (OnlineUsers.findBySocket_eq_some_mem hf)
          simp only [hv, if_true]
          rfl
      rw [hcount]
      simp only [Bool.false_eq_true, if_false]
      omega

/-- C2, witness: Alice connects, reconnects on a second socket, the old socket
disconnects, then the new one. Three broadcasts: two edges and one re-registration. -/
theorem presence_broadcasts_edges_and_reregistrations_witness :
    (∀ e ∈ [ConnEvent.connect "alice" ⟨1⟩ 0 true, ConnEvent.connect "alice" ⟨2⟩ 1 true,
        ConnEvent.disconnect ⟨1⟩ 2 true, ConnEvent.disconnect ⟨2⟩ 3 true],
        e.storageOk = true) ∧
      presenceBroadcasts (allEmits (initialState [] [])
          [ConnEvent.connect "alice" ⟨1⟩ 0 true, ConnEvent.connect "alice" ⟨2⟩ 1 true,
            ConnEvent.disconnect ⟨1⟩ 2 true, ConnEvent.disconnect ⟨2⟩ 3 true])
        = genuineEdges (initialState [] [])
            [ConnEvent.connect "alice" ⟨1⟩ 0 true, ConnEvent.connect "alice" ⟨2⟩ 1 true,
              ConnEvent.disconnect ⟨1⟩ 2 true, ConnEvent.disconnect ⟨2⟩ 3 true]
          + reRegistrations (initialState [] [])
            [ConnEvent.connect "alice" ⟨1⟩ 0 true, ConnEvent.connect "alice" ⟨2⟩ 1 true,
              ConnEvent.disconnect ⟨1⟩ 2 true, ConnEvent.disconnect ⟨2⟩ 3 true] ∧
      genuineEdges (initialState [] [])
          [ConnEvent.connect "alice" ⟨1⟩ 0 true, ConnEvent.connect "alice" ⟨2⟩ 1 true,
            ConnEvent.disconnect ⟨1⟩ 2 true, ConnEvent.disconnect ⟨2⟩ 3 true] = 2 ∧
      reRegistrations (initialState [] [])
          [ConnEvent.connect "alice" ⟨1⟩ 0 true, ConnEvent.connect "alice" ⟨2⟩ 1 true,
            ConnEvent.disconnect ⟨1⟩ 2 true, ConnEvent.disconnect ⟨2⟩ 3 true] = 1 :=
  ⟨by decide,
    (presence_broadcasts_edges_and_reregistrations (initialState [] [])
      [ConnEvent.connect "alice" ⟨1⟩ 0 true, ConnEvent.connect "alice" ⟨2⟩ 1 true,
        ConnEvent.disconnect ⟨1⟩ 2 true, ConnEvent.disconnect ⟨2⟩ 3 true]
      (by decide) (by decide) (by decide)).2,
    by decide, by decide⟩

/-! ## C3: marking a message read twice -/

/-- C3, counterexample. Message 1 from Alice is unread and Alice is online. Marking
it read at time 10 and again at time 20 moves `readAt` from 10 to 20, and both
calls send a receipt; the route overwrites `readAt` in the same way. -/
theorem mark_read_twice_counterexample :
    (Message.findById
        (message_read
          ⟨⟨[("alice", ⟨1⟩)]⟩, [], [⟨1, "alice", "bob", "hi", 3, false, none⟩]⟩
          1 "alice" 10 true).state.messages 1).map Message.readAt = some (some 10) ∧
      (Message.findById
        (message_read
          (message_read
            ⟨⟨[("alice", ⟨1⟩)]⟩, [], [⟨1, "alice", "bob", "hi", 3, false, none⟩]⟩
            1 "alice" 10 true).state
          1 "alice" 20 true).state.messages 1).map Message.readAt = some (some 20) ∧
      ((message_read
          ⟨⟨[("alice", ⟨1⟩)]⟩, [], [⟨1, "alice", "bob", "hi", 3, false, none⟩]⟩
          1 "alice" 10 true).emits
        ++ (message_read
          (message_read
            ⟨⟨[("alice", ⟨1⟩)]⟩, [], [⟨1, "alice", "bob", "hi", 3, false, none⟩]⟩
            1 "alice" 10 true).state
          1 "alice" 20 true).emits).length = 2 ∧
      (putRead
        (putRead [⟨1, "alice", "bob", "hi", 3, false, none⟩] 1 10 true true).messages
        1 20 true true).body.map Message.readAt = some (some 20) := by
  decide

/-- C3, amended. Marking an existing message read twice, with storage succeeding:
each call stores `isRead = true` and overwrites `readAt` with its own time, so
after the second call `readAt` is the time of the second call; each call of the
socket handler emits the same events, one receipt to the socket registered for
the user id of the payload when there is one; the route answers 200 with the
overwritten message both times, and after each run of the route the stored
message is the overwritten one. -/
theorem mark_read_twice_overwrites (st : ServerState) (messageId : MessageId)
    (userId : UserId) (t1 t2 : Nat) (msg : Message)
    (hfound : Message.findById st.messages messageId = some msg) :
    Message.findById (message_read st messageId userId t1 true).state.messages messageId
        = some { msg with isRead := true, readAt := some t1 } ∧
      Message.findById
          (message_read (message_read st messageId userId t1 true).state
            messageId userId t2 true).state.messages messageId
        = some { msg with isRead := true, readAt := some t2 } ∧
      (message_read st messageId userId t1 true).emits
        = (st.onlineUsers.get userId).toList.map
            (fun h => ⟨Target.room h, Payload.message_read_receipt messageId⟩) ∧
      (message_read (message_read st messageId userId t1 true).state
          messageId userId t2 true).emits
        = (message_read st messageId userId t1 true).emits ∧
      (putRead st.messages messageId t1 true true).body
        = some { msg with isRead := true, readAt := some t1 } ∧
      (putRead (putRead st.messages messageId t1 true true).messages
          messageId t2 true true).status = 200 ∧
      (putRead (putRead st.messages messageId t1 true true).messages
          messageId t2 true true).body
        = some { msg with isRead := true, readAt := some t2 } ∧
      (putRead st.messages messageId t1 true true).status = 200 ∧
      Message.findById (putRead st.messages messageId t1 true true).messages messageId
        = some { msg with isRead := true, readAt := some t1 } ∧
      Message.findById
          (putRead (putRead st.messages messageId t1 true true).messages
            messageId t2 true true).messages messageId
        = some { msg with isRead := true, readAt := some t2 } := by
  have hid : msg.id = messageId := findById_id hfound
  have hstate1 : (message_read st messageId userId t1 true).state
      = { st with messages := Message.findByIdAndUpdate st.messages messageId t1 } := rfl
  have hemits : ∀ (s : ServerState) (t : Nat), (message_read s messageId userId t true).emits
      = (s.onlineUsers.get userId).toList.map
          (fun h => ⟨Target.room h, Payload.message_read_receipt messageId⟩) := by
    intro s t
    unfold message_read
    cases s.onlineUsers.get userId <;> rfl
  have hfind1 : Message.findById (Message.findByIdAndUpdate st.messages messageId t1) messageId
      = some { msg with isRead := true, readAt := some t1 } := by
    rw [findById_findByIdAndUpdate, hfound]
    rfl
  have hsave1 : Message.findById
      (Message.save st.messages { msg with isRead := true, readAt := some t1 }) messageId
        = some { msg with isRead := true, readAt := some t1 } := by
    have := findById_save st.messages { msg with isRead := true, readAt := some t1 }
      (by simp [hid, hfound])
    simpa [hid] using this
  have hput1 : putRead st.messages messageId t1 true true
      = { messages := Message.save st.messages { msg with isRead := true, readAt := some t1 }
          status := 200
          body := some { msg with isRead := true, readAt := some t1 }
          dbCalls := [DbCall.messageFindById messageId, DbCall.messageSave messageId] } := by
    simp [putRead, hfound]
  have hput2 : putRead
      (Message.save st.messages { msg with isRead := true, readAt := some t1 })
      messageId t2 true true
      = { messages := Message.save
            (Message.save st.messages { msg with isRead := true, readAt := some t1 })
            { msg with isRead := true, readAt := some t2 }
          status := 200
          body := some { msg with isRead := true, readAt := some t2 }
          dbCalls := [DbCall.messageFindById messageId, DbCall.messageSave messageId] } := by
    simp [putRead, hsave1]
  have hsave2 : Message.findById
      (Message.save
        (Message.save st.messages { msg with isRead := true, readAt := some t1 })
        { msg with isRead := true, readAt := some t2 }) messageId
        = some { msg with isRead := true, readAt := some t2 } := by
    have := findById_save
      (Message.save st.messages { msg with isRead := true, readAt := some t1 })
      { msg with isRead := true, readAt := some t2 }
      (by
        have h1 := hsave1
        rw [← hid] at h1
        show (Message.findById _ msg.id).isSome = true
        rw [h1]
        rfl)
    simpa [hid] using this
  refine ⟨hfind1, ?_, hemits st t1, ?_, ?_, ?_, ?_, ?_, ?_, ?_⟩
  · show Message.findById (Message.findByIdAndUpdate
        (Message.findByIdAndUpdate st.messages messageId t1) messageId t2) messageId = _
    rw [findById_findByIdAndUpdate, hfind1]
    rfl
  · rw [hemits, hemits, hstate1]
  · rw [hput1]
  · rw [hput1]
    simp only
    rw [hput2]
  · rw [hput1]
    simp only
    rw [hput2]
  · rw [hput1]
  · rw [hput1]
    exact hsave1
  · rw [hput1]
    simp only
    rw [hput2]
    exact hsave2

/-- C3, witness: message 1 from Alice to Bob, Alice online on socket 1, marked read
at time 10 and again at time 20, through the socket handler and through the route. -/
theorem mark_read_twice_overwrites_witness :
    Message.findById [⟨1, "alice", "bob", "hi", 3, false, none⟩] 1
        = some ⟨1, "alice", "bob", "hi", 3, false, none⟩ ∧
      Message.findById
          (message_read
            (message_read
              ⟨⟨[("alice", ⟨1⟩)]⟩, [], [⟨1, "alice", "bob", "hi", 3, false, none⟩]⟩
              1 "alice" 10 true).state
            1 "alice" 20 true).state.messages 1
        = some ⟨1, "alice", "bob", "hi", 3, true, some 20⟩ ∧
      Message.findById
          (putRead (putRead [⟨1, "alice", "bob", "hi", 3, false, none⟩] 1 10 true true).messages
            1 20 true true).messages 1
        = some ⟨1, "alice", "bob", "hi", 3, true, some 20⟩ :=
  ⟨by decide,
    (mark_read_twice_overwrites
      ⟨⟨[("alice", ⟨1⟩)]⟩, [], [⟨1, "alice", "bob", "hi", 3, false, none⟩]⟩
      1 "alice" 10 20 ⟨1, "alice", "bob", "hi", 3, false, none⟩ (by decide)).2.1,
    (mark_read_twice_overwrites
      ⟨⟨[("alice", ⟨1⟩)]⟩, [], [⟨1, "alice", "bob", "hi", 3, false, none⟩]⟩
      1 "alice" 10 20 ⟨1, "alice", "bob", "hi", 3, false, none⟩
      (by decide)).2.2.2.2.2.2.2.2.2⟩

/-! ## C4: sending to a receiver who is offline -/

/-- C4. When the receiver has no entry in `onlineUsers` and storage succeeds (the
create is accepted under a fresh id and the follow-up find resolves),
`send_message` persists exactly one message with the sender, receiver and content
of the request, emits exactly one event, `message_sent` carrying that message on
the sending socket, and so no `receive_message` on any connection. -/
theorem send_message_receiver_offline (st : ServerState) (socket : SocketId)
    (data : SendData) (now : Nat) (db : SendStorage)
    (hoff : st.onlineUsers.get data.receiver = none)
    (hcreate : db.createOk = true)
    (hfresh : st.messages.any (fun m => m.id == db.newId) = false)
    (hfind : db.findOk = true) :
    (send_message st socket data now db).state.messages
        = st.messages ++ [⟨db.newId, data.sender, data.receiver, data.content, now, false, none⟩] ∧
      (send_message st socket data now db).emits
        = [⟨Target.socket socket, Payload.message_sent
            (some ⟨db.newId, data.sender, data.receiver, data.content, now, false, none⟩)⟩] ∧
      (send_message st socket data now db).state.onlineUsers = st.onlineUsers := by
  have hc : Message.create st.messages db.createOk db.newId now data.sender data.receiver
      data.content
      = some (⟨db.newId, data.sender, data.receiver, data.content, now, false, none⟩,
          st.messages ++ [⟨db.newId, data.sender, data.receiver, data.content, now, false, none⟩]) := by
    simp [Message.create, hcreate, hfresh]
  have hf := findById_append_fresh st.messages
    ⟨db.newId, data.sender, data.receiver, data.content, now, false, none⟩ hfresh
  simp only at hf
  unfold send_message
  rw [hc]
  simp only [hfind, if_true, hoff, hf, List.nil_append]
  exact ⟨trivial, trivial, trivial⟩

/-- C4, witness: Alice writes to Bob while only Alice is online. -/
theorem send_message_receiver_offline_witness :
    (OnlineUsers.mk [("alice", ⟨1⟩)]).get "bob" = none ∧
      (send_message ⟨⟨[("alice", ⟨1⟩)]⟩, [], []⟩ ⟨1⟩ ⟨"alice", "bob", "hello"⟩ 5
          ⟨true, 1, true⟩).emits
        = [⟨Target.socket ⟨1⟩, Payload.message_sent
            (some ⟨1, "alice", "bob", "hello", 5, false, none⟩)⟩] :=
  ⟨by decide,
    (send_message_receiver_offline ⟨⟨[("alice", ⟨1⟩)]⟩, [], []⟩ ⟨1⟩
      ⟨"alice", "bob", "hello"⟩ 5 ⟨true, 1, true⟩
      (by decide) (by decide) (by decide) (by decide)).2.1⟩

/-! ## C5: content that is empty after trimming -/

/-- C5. For every send request whose content is empty after trimming whitespace,
whatever the store would answer, the server-side send operations fail at the
validation of `Message.create`, before any write: the state is unchanged, so no
message is created, the only storage call attempted is the rejected create, the
socket handler emits only `message_error` on the sending socket, so neither
`receive_message` nor `message_sent`, and the route answers 500 without a
message and leaves the collection as it was. -/
theorem blank_content_rejected (st : ServerState) (socket : SocketId) (data : SendData)
    (now : Nat) (db : SendStorage) (hblank : trim data.content = "") :
    (send_message st socket data now (db.withValidation data.content)).state = st ∧
      (send_message st socket data now (db.withValidation data.content)).emits
        = [⟨Target.socket socket, Payload.message_error⟩] ∧
      (∀ e ∈ (send_message st socket data now (db.withValidation data.content)).emits,
        ∀ m, e.payload ≠ Payload.receive_message m ∧ e.payload ≠ Payload.message_sent m) ∧
      (send_message st socket data now (db.withValidation data.content)).dbCalls
        = [DbCall.messageCreate data.sender data.receiver data.content] ∧
      (postMessage st.messages data.sender data.receiver data.content now
          (db.withValidation data.content)).messages = st.messages ∧
      (postMessage st.messages data.sender data.receiver data.content now
          (db.withValidation data.content)).status = 500 ∧
      (postMessage st.messages data.sender data.receiver data.content now
          (db.withValidation data.content)).body = none ∧
      (postMessage st.messages data.sender data.receiver data.content now
          (db.withValidation data.content)).dbCalls
        = [DbCall.messageCreate data.sender data.receiver data.content] := by
  have hr := create_blank_rejected st.messages db now data.sender data.receiver
    data.content hblank
  have hemits : (send_message st socket data now (db.withValidation data.content)).emits
      = [⟨Target.socket socket, Payload.message_error⟩] := by
    unfold send_message
    rw [hr]
  refine ⟨?_, hemits, ?_, ?_, ?_, ?_, ?_, ?_⟩
  · unfold send_message
    rw [hr]
  · intro e he m
    rw [hemits, List.mem_singleton] at he
    subst he
    exact ⟨fun h => (by cases h), fun h => (by cases h)⟩
  · unfold send_message
    rw [hr]
  · unfold postMessage
    rw [hr]
  · unfold postMessage
    rw [hr]
  · unfold postMessage
    rw [hr]
  · unfold postMessage
    rw [hr]

/-- C5, witness: Alice sends three spaces to Bob, who is online, over a store that
is available and would accept the id. -/
theorem blank_content_rejected_witness :
    trim "   " = "" ∧
      (send_message ⟨⟨[("alice", ⟨1⟩), ("bob", ⟨2⟩)]⟩, [], []⟩ ⟨1⟩ ⟨"alice", "bob", "   "⟩ 5
          ((SendStorage.mk true 1 true).withValidation "   ")).state
        = ⟨⟨[("alice", ⟨1⟩), ("bob", ⟨2⟩)]⟩, [], []⟩ ∧
      (send_message ⟨⟨[("alice", ⟨1⟩), ("bob", ⟨2⟩)]⟩, [], []⟩ ⟨1⟩ ⟨"alice", "bob", "   "⟩ 5
          ((SendStorage.mk true 1 true).withValidation "   ")).emits
        = [⟨Target.socket ⟨1⟩, Payload.message_error⟩] :=
  ⟨by decide,
    (blank_content_rejected ⟨⟨[("alice", ⟨1⟩), ("bob", ⟨2⟩)]⟩, [], []⟩ ⟨1⟩
      ⟨"alice", "bob", "   "⟩ 5 ⟨true, 1, true⟩ (by decide)).1,
    (blank_content_rejected ⟨⟨[("alice", ⟨1⟩), ("bob", ⟨2⟩)]⟩, [], []⟩ ⟨1⟩
      ⟨"alice", "bob", "   "⟩ 5 ⟨true, 1, true⟩ (by decide)).2.1⟩

/-! ## C6: a presence update that fails in storage -/

/-- C6, counterexample. Alice is offline and connects, a genuine edge, while the
presence update fails: nothing is broadcast, although she is now registered. Then
her socket disconnects, again with the update failing: nothing is broadcast,
although her entry is gone. -/
theorem presence_update_failure_counterexample :
    OnlineUsers.empty.get "alice" = none ∧
      (user_connected (initialState [] []) ⟨1⟩ "alice" 5 false).emits = [] ∧
      (user_connected (initialState [] []) ⟨1⟩ "alice" 5 false).state.onlineUsers.get "alice"
        = some ⟨1⟩ ∧
      (disconnect ⟨⟨[("alice", ⟨1⟩)]⟩, [], []⟩ ⟨1⟩ 6 false).emits = [] ∧
      (disconnect ⟨⟨[("alice", ⟨1⟩)]⟩, [], []⟩ ⟨1⟩ 6 false).state.onlineUsers.get "alice"
        = none := by
  decide

/-- C6, amended. When the storage update of the presence fails, the handlers of
`user_connected` and `disconnect` emit nothing at all: the failure is caught and
only logged. The registry change was made before the storage call and stays:
it is the same as when the storage call succeeds. The user collection is
untouched. -/
theorem presence_update_failure_blocks_broadcast (st : ServerState) (socket : SocketId)
    (userId : UserId) (now : Nat) :
    (user_connected st socket userId now false).emits = [] ∧
      (user_connected st socket userId now false).caught = true ∧
      (user_connected st socket userId now false).state.onlineUsers
        = st.onlineUsers.set userId socket ∧
      (user_connected st socket userId now false).state.users = st.users ∧
      (disconnect st socket now false).emits = [] ∧
      (disconnect st socket now false).state.onlineUsers
        = (disconnect st socket now true).state.onlineUsers ∧
      (disconnect st socket now false).state.users = st.users := by
  refine ⟨rfl, rfl, rfl, rfl, ?_, ?_, ?_⟩
  · unfold disconnect
    cases st.onlineUsers.findBySocket socket with
    | none => rfl
    | some v => cases ht : truthy v <;> simp [ht]
  · rw [disconnect_registry, disconnect_registry]
  · unfold disconnect
    cases st.onlineUsers.findBySocket socket with
    | none => rfl
    | some v => cases ht : truthy v <;> simp [ht]

/-! ## C7: a send that fails in storage -/

/-- C7. When the storage collaborator fails during `send_message`, whether
`Message.create` rejects or the follow-up `findById` does, the handler emits
exactly one event, `message_error` on the sending socket, hence no
`receive_message` and no `message_sent`, and `onlineUsers` is unchanged. -/
theorem send_message_storage_failure (st : ServerState) (socket : SocketId)
    (data : SendData) (now : Nat) (db : SendStorage)
    (hfail : Message.create st.messages db.createOk db.newId now data.sender data.receiver
        data.content = none ∨ db.findOk = false) :
    (send_message st socket data now db).emits
        = [⟨Target.socket socket, Payload.message_error⟩] ∧
      (send_message st socket data now db).state.onlineUsers = st.onlineUsers ∧
      (send_message st socket data now db).caught = true := by
  unfold send_message
  cases hc : Message.create st.messages db.createOk db.newId now data.sender data.receiver
      data.content with
  | none => exact ⟨rfl, rfl, rfl⟩
  | some created =>
    rcases hfail with hnone | hfind
    · rw [hc] at hnone
      exact absurd hnone (by simp)
    · simp only [hfind, Bool.false_eq_true, if_false]
      exact ⟨trivial, trivial, trivial⟩

/-- C7, witness: the create is accepted and the follow-up find fails, Bob online. -/
theorem send_message_storage_failure_witness :
    (Message.create [] true 1 5 "alice" "bob" "hello" = none ∨ false = false) ∧
      (send_message ⟨⟨[("bob", ⟨2⟩)]⟩, [], []⟩ ⟨1⟩ ⟨"alice", "bob", "hello"⟩ 5
          ⟨true, 1, false⟩).emits
        = [⟨Target.socket ⟨1⟩, Payload.message_error⟩] :=
  ⟨Or.inr rfl,
    (send_message_storage_failure ⟨⟨[("bob", ⟨2⟩)]⟩, [], []⟩ ⟨1⟩ ⟨"alice", "bob", "hello"⟩ 5
      ⟨true, 1, false⟩ (Or.inr rfl)).1⟩

/-! ## C8: who receives the read receipt -/

/-- C8, counterexample. Message 1 was sent by Alice, who is online on socket 1. A
`message_read` for it whose payload carries the id of Carol sends the receipt to
the socket of Carol and nothing to the socket of Alice. -/
theorem read_receipt_follows_payload_counterexample :
    (Message.findById [⟨1, "alice", "bob", "hi", 3, false, none⟩] 1).map Message.sender
        = some "alice" ∧
      (OnlineUsers.mk [("alice", ⟨1⟩), ("carol", ⟨3⟩)]).get "alice" = some ⟨1⟩ ∧
      (message_read
          ⟨⟨[("alice", ⟨1⟩), ("carol", ⟨3⟩)]⟩, [], [⟨1, "alice", "bob", "hi", 3, false, none⟩]⟩
          1 "carol" 9 true).emits
        = [⟨Target.room ⟨3⟩, Payload.message_read_receipt 1⟩] := by
  decide

/-- C8, amended. For every stored message and every `message_read` request for it
with storage succeeding, the receipt goes to the connection registered for the
user id the payload carries, when there is one, and to no other connection; the
stored sender is not consulted. It is the connection of the original sender when
the payload carries the id of the sender. -/
theorem read_receipt_follows_payload (st : ServerState) (messageId : MessageId)
    (userId : UserId) (now : Nat) (msg : Message)
    (hfound : Message.findById st.messages messageId = some msg) :
    (message_read st messageId userId now true).emits
        = (st.onlineUsers.get userId).toList.map
            (fun h => ⟨Target.room h, Payload.message_read_receipt messageId⟩) ∧
      (message_read st messageId msg.sender now true).emits
        = (st.onlineUsers.get msg.sender).toList.map
            (fun h => ⟨Target.room h, Payload.message_read_receipt msg.id⟩) := by
  have hid : msg.id = messageId := findById_id hfound
  have hemits : ∀ u : UserId, (message_read st messageId u now true).emits
      = (st.onlineUsers.get u).toList.map
          (fun h => ⟨Target.room h, Payload.message_read_receipt messageId⟩) := by
    intro u
    unfold message_read
    cases st.onlineUsers.get u <;> rfl
  exact ⟨hemits userId, by rw [hemits, hid]⟩

/-- C8, witness: the payload carries the id of Carol, the sender is Alice. -/
theorem read_receipt_follows_payload_witness :
    Message.findById [⟨1, "alice", "bob", "hi", 3, false, none⟩] 1
        = some ⟨1, "alice", "bob", "hi", 3, false, none⟩ ∧
      (message_read
          ⟨⟨[("alice", ⟨1⟩), ("carol", ⟨3⟩)]⟩, [], [⟨1, "alice", "bob", "hi", 3, false, none⟩]⟩
          1 "carol" 9 true).emits
        = ((OnlineUsers.mk [("alice", ⟨1⟩), ("carol", ⟨3⟩)]).get "carol").toList.map
            (fun h => ⟨Target.room h, Payload.message_read_receipt 1⟩) :=
  ⟨by decide,
    (read_receipt_follows_payload
      ⟨⟨[("alice", ⟨1⟩), ("carol", ⟨3⟩)]⟩, [], [⟨1, "alice", "bob", "hi", 3, false, none⟩]⟩
      1 "carol" 9 ⟨1, "alice", "bob", "hi", 3, false, none⟩ (by decide)).1⟩

/-! ## C9: disconnect of a socket that holds no entry -/

/-- C9. When the socket is not the value of any entry of `onlineUsers`, the
disconnect handler changes nothing: the state is the same, no storage call is
made and nothing is emitted, whatever the storage would answer. In particular,
after a user is announced on a socket other than this one, the disconnect of
this one leaves the user registered on the new socket. -/
theorem disconnect_unregistered_socket (st : ServerState) (socket : SocketId) (now : Nat)
    (dbOk : Bool) (hfree : ∀ e ∈ st.onlineUsers.entries, e.2 ≠ socket) :
    disconnect st socket now dbOk
        = { state := st, emits := [], dbCalls := [], caught := false } ∧
      ∀ (userId : UserId) (newSocket : SocketId) (time : Nat) (ok : Bool),
        newSocket ≠ socket →
          (disconnect (user_connected st newSocket userId time ok).state socket now dbOk).state
              = (user_connected st newSocket userId time ok).state ∧
            (disconnect (user_connected st newSocket userId time ok).state socket now
              dbOk).emits = [] ∧
            (disconnect (user_connected st newSocket userId time ok).state socket now
              dbOk).state.onlineUsers.get userId = some newSocket := by
  have hnoop : ∀ s : ServerState, (∀ e ∈ s.onlineUsers.entries, e.2 ≠ socket) →
      disconnect s socket now dbOk
        = { state := s, emits := [], dbCalls := [], caught := false } := by
    intro s hs
    unfold disconnect
    rw [OnlineUsers.findBySocket_eq_none.mpr hs]
  refine ⟨hnoop st hfree, ?_⟩
  intro userId newSocket time ok hne
  have hfree2 : ∀ e ∈ (user_connected st newSocket userId time ok).state.onlineUsers.entries,
      e.2 ≠ socket := by
    intro e he
    rw [user_connected_registry] at he
    rcases OnlineUsers.mem_set he with rfl | ⟨hmem, _⟩
    · exact hne
    · exact hfree e hmem
  rw [hnoop _ hfree2]
  refine ⟨rfl, rfl, ?_⟩
  simp only
  rw [user_connected_registry]
  exact OnlineUsers.get_set_self _ _ _

/-- C9, witness: Alice moved from socket 1 to socket 2, then socket 1 disconnects. -/
theorem disconnect_unregistered_socket_witness :
    (∀ e ∈ (OnlineUsers.mk [("alice", ⟨2⟩)]).entries, e.2 ≠ (⟨1⟩ : SocketId)) ∧
      disconnect ⟨⟨[("alice", ⟨2⟩)]⟩, [], []⟩ ⟨1⟩ 8 true
        = { state := ⟨⟨[("alice", ⟨2⟩)]⟩, [], []⟩, emits := [], dbCalls := [], caught := false } :=
  ⟨by decide,
    (disconnect_unregistered_socket ⟨⟨[("alice", ⟨2⟩)]⟩, [], []⟩ ⟨1⟩ 8 true (by decide)).1⟩

/-! ## C10: marking an unknown message read -/

/-- C10, the code at the failing input. No message is stored and Alice is online on
socket 1. The route answers 404 and saves nothing; the socket handler, given the
same unknown message id and the id of Alice, changes no message but sends a
`message_read_receipt` for the unknown id to the socket of Alice. -/
theorem message_read_unknown_id_emits_receipt :
    Message.findById [] 7 = none ∧
      (putRead [] 7 9 true true).status = 404 ∧
      (putRead [] 7 9 true true).dbCalls = [DbCall.messageFindById 7] ∧
      (message_read ⟨⟨[("alice", ⟨1⟩)]⟩, [], []⟩ 7 "alice" 9 true).state.messages = [] ∧
      (message_read ⟨⟨[("alice", ⟨1⟩)]⟩, [], []⟩ 7 "alice" 9 true).emits
        = [⟨Target.room ⟨1⟩, Payload.message_read_receipt 7⟩] := by
  decide

/-! ## C11: typing signals -/

/-- C11. For every state and every `typing` or `stop_typing` event with sender and
receiver ids: when the receiver has a handle in `onlineUsers`, exactly one event
is emitted, `user_typing` (respectively `user_stopped_typing`) carrying the
sender id, to the room of that handle and nowhere else; when the receiver has
no entry, nothing is emitted; in both cases no error is raised, no storage call
is made and the state, `onlineUsers` included, is unchanged. -/
theorem typing_signal_delivery (st : ServerState) (senderId receiverId : UserId) :
    (∀ h : SocketId, st.onlineUsers.get receiverId = some h →
        (typing st senderId receiverId).emits
            = [⟨Target.room h, Payload.user_typing senderId⟩] ∧
          (stop_typing st senderId receiverId).emits
            = [⟨Target.room h, Payload.user_stopped_typing senderId⟩]) ∧
      (st.onlineUsers.get receiverId = none →
        (typing st senderId receiverId).emits = [] ∧
          (stop_typing st senderId receiverId).emits = []) ∧
      (typing st senderId receiverId).caught = false ∧
      (stop_typing st senderId receiverId).caught = false ∧
      (typing st senderId receiverId).dbCalls = [] ∧
      (stop_typing st senderId receiverId).dbCalls = [] ∧
      (typing st senderId receiverId).state = st ∧
      (stop_typing st senderId receiverId).state = st := by
  unfold typing stop_typing
  cases hget : st.onlineUsers.get receiverId with
  | none =>
    refine ⟨?_, fun _ => ⟨rfl, rfl⟩, rfl, rfl, rfl, rfl, rfl, rfl⟩
    intro h hh
    cases hh
  | some k =>
    refine ⟨?_, ?_, rfl, rfl, rfl, rfl, rfl, rfl⟩
    · intro h hh
      cases hh
      exact ⟨rfl, rfl⟩
    · intro hh
      cases hh

/-- C11 at two concrete states: Bob online on socket 2 receives the signal of
Alice, and with Bob offline nothing is emitted. -/
theorem typing_signal_delivery_witness :
    (typing ⟨⟨[("alice", ⟨1⟩), ("bob", ⟨2⟩)]⟩, [], []⟩ "alice" "bob").emits
        = [⟨Target.room ⟨2⟩, Payload.user_typing "alice"⟩] ∧
      (stop_typing ⟨⟨[("alice", ⟨1⟩), ("bob", ⟨2⟩)]⟩, [], []⟩ "alice" "bob").emits
        = [⟨Target.room ⟨2⟩, Payload.user_stopped_typing "alice"⟩] ∧
      (typing ⟨⟨[("alice", ⟨1⟩)]⟩, [], []⟩ "alice" "bob").emits = [] ∧
      (stop_typing ⟨⟨[("alice", ⟨1⟩)]⟩, [], []⟩ "alice" "bob").emits = [] :=
  ⟨((typing_signal_delivery ⟨⟨[("alice", ⟨1⟩), ("bob", ⟨2⟩)]⟩, [], []⟩ "alice" "bob").1
      ⟨2⟩ (by decide)).1,
    ((typing_signal_delivery ⟨⟨[("alice", ⟨1⟩), ("bob", ⟨2⟩)]⟩, [], []⟩ "alice" "bob").1
      ⟨2⟩ (by decide)).2,
    ((typing_signal_delivery ⟨⟨[("alice", ⟨1⟩)]⟩, [], []⟩ "alice" "bob").2.1 (by decide)).1,
    ((typing_signal_delivery ⟨⟨[("alice", ⟨1⟩)]⟩, [], []⟩ "alice" "bob").2.1 (by decide)).2⟩

end ChatServer
